import Mathlib

/-!
Shallow embedding of the gignore library (Go): typed ignore-file rules, the
subsumption relation, the conflict classifier, the ordered rule container
with its insertion / deletion / move operations, the multi-pass conflict
fixer, and the line parser.  Go strings are modelled as Lean `String`s and
the Go `strings` helpers (`HasPrefix`, `HasSuffix`, `TrimPrefix`,
`TrimSuffix`, `TrimSpace`, `Contains` for one-character needles) are
re-implemented over the underlying character lists so that everything
computes by `decide` / `rfl`.
-/

namespace Gignore

/-- Character-level whitespace test standing in for Go `unicode.IsSpace`
(agrees on the ASCII whitespace appearing in this library). -/
def isWs (c : Char) : Bool := c.isWhitespace

/-- Trim leading and trailing whitespace from a character list
(Go `strings.TrimSpace`). -/
def trimChars (l : List Char) : List Char :=
  ((l.dropWhile isWs).reverse.dropWhile isWs).reverse

/-- Go `strings.TrimSpace`. -/
def trimStr (s : String) : String := ⟨trimChars s.data⟩

/-- Go `strings.HasPrefix s p`. -/
def hasPre (s p : String) : Bool := p.data.isPrefixOf s.data

/-- Go `strings.HasSuffix s p`. -/
def hasSuf (s p : String) : Bool := p.data.isSuffixOf s.data

/-- Go `strings.TrimPrefix s p`: drop one leading occurrence of `p`. -/
def dropPre (s p : String) : String :=
  if hasPre s p then ⟨s.data.drop p.data.length⟩ else s

/-- Go `strings.TrimSuffix s p`: drop one trailing occurrence of `p`. -/
def dropSuf (s p : String) : String :=
  if hasSuf s p then ⟨s.data.take (s.data.length - p.data.length)⟩ else s

/-- Go `strings.Contains s c` for a single-character needle. -/
def containsChar (s : String) (c : Char) : Bool := s.data.any (· == c)

-- MARK: Actions (gignore.go)

/-- Go `Action`; only the two validated values are representable, mirroring
that every stored rule passed `Action.Validate`. -/
inductive Action where
  | INCLUDE
  | EXCLUDE
deriving DecidableEq, Repr

export Action (INCLUDE EXCLUDE)

/-- Go `Action.Prefix`: `""` for INCLUDE, `"!"` for EXCLUDE. -/
def Action.pre : Action → String
  | INCLUDE => ""
  | EXCLUDE => "!"

-- MARK: Directory modes (gignore.go)

/-- Go `DirectoryMode`; only the five validated values are representable. -/
inductive DirectoryMode where
  | DIRECTORY
  | CHILDREN
  | RECURSIVE
  | ANYWHERE
  | ROOT_ONLY
deriving DecidableEq, Repr

export DirectoryMode (DIRECTORY CHILDREN RECURSIVE ANYWHERE ROOT_ONLY)

/-- Go `DirectoryMode.Prefix`. -/
def modePre : DirectoryMode → String
  | ANYWHERE => "**/"
  | ROOT_ONLY => "/"
  | _ => ""

/-- Go `DirectoryMode.Suffix`. -/
def modeSuf : DirectoryMode → String
  | DIRECTORY => "/"
  | CHILDREN => "/*"
  | RECURSIVE => "/**"
  | _ => ""

-- MARK: Rules (gignore.go)

/-- The four Go rule structs (`FileRule`, `ExtensionRule`, `DirectoryRule`,
`GlobRule`) implementing the `Ruler` interface, as one sum type. -/
inductive Ruler where
  | file (path : String) (act : Action)
  | ext (ext : String) (act : Action)
  | dir (name : String) (mode : DirectoryMode) (act : Action)
  | glob (pattern : String) (act : Action)
deriving DecidableEq, Repr

/-- The `Action()` interface method. -/
def Ruler.Action : Ruler → Action
  | .file _ a => a
  | .ext _ a => a
  | .dir _ _ a => a
  | .glob _ a => a

/-- The `Render()` interface method of each rule struct. -/
def Ruler.Render : Ruler → String
  | .file p a => a.pre ++ p
  | .ext e a => a.pre ++ "*." ++ e
  | .dir n m a => a.pre ++ modePre m ++ n ++ modeSuf m
  | .glob g a => a.pre ++ g

/-- The `Pattern()` interface method: `FileRule` and `GlobRule` return their
field directly; `ExtensionRule` and `DirectoryRule` return the rendered text
with any leading `!` removed. -/
def Ruler.Pattern : Ruler → String
  | .file p _ => p
  | .ext e a =>
    let rendered := Ruler.Render (.ext e a)
    if hasPre rendered "!" then ⟨rendered.data.drop 1⟩ else rendered
  | .dir n m a =>
    let rendered := Ruler.Render (.dir n m a)
    if hasPre rendered "!" then ⟨rendered.data.drop 1⟩ else rendered
  | .glob g _ => g

-- MARK: Errors (gignore.go `var` block)

/-- The library's error values. -/
inductive GErr where
  | semanticConflict
  | redundantRule
  | unreachableRule
  | ruleNotFound
  | targetRuleNotFound
  | ruleToMoveNotFound
  | emptyGlobPattern
  | emptyPath
  | emptyExtension
  | emptyDirectoryName
  | invalidDirection
  | sourceIdxOutOfRange
  | targetIdxOutOfRange
deriving DecidableEq, Repr

-- MARK: Constructors with validation (gignore.go)

/-- Go `validatePath`. -/
def validatePath (path : String) : Except GErr String :=
  let path := trimStr path
  if path = "" then .error .emptyPath else .ok path

/-- Go `NewFileRule`. -/
def NewFileRule (path : String) (act : Action) : Except GErr Ruler :=
  match validatePath path with
  | .error e => .error e
  | .ok clean => .ok (.file clean act)

/-- Go `validateExtension`: trim whitespace, strip one `*.` prefix. -/
def validateExtension (e : String) : Except GErr String :=
  let e := trimStr e
  let e := dropPre e "*."
  if e = "" then .error .emptyExtension else .ok e

/-- Go `NewExtensionRule`. -/
def NewExtensionRule (e : String) (act : Action) : Except GErr Ruler :=
  match validateExtension e with
  | .error err => .error err
  | .ok clean => .ok (.ext clean act)

/-- Go `validateDirectoryName`: trim whitespace, strip one leading and one
trailing slash. -/
def validateDirectoryName (name : String) : Except GErr String :=
  let name := trimStr name
  let name := dropPre name "/"
  let name := dropSuf name "/"
  if name = "" then .error .emptyDirectoryName else .ok name

/-- Go `NewDirectoryRule` (mode and action validation are vacuous here since
the Lean enums only contain valid values). -/
def NewDirectoryRule (path : String) (mode : DirectoryMode) (act : Action) :
    Except GErr Ruler :=
  match validateDirectoryName path with
  | .error e => .error e
  | .ok clean => .ok (.dir clean mode act)

/-- Go `validateGlobPattern`. -/
def validateGlobPattern (pattern : String) : Except GErr String :=
  let pattern := trimStr pattern
  if pattern = "" then .error .emptyGlobPattern else .ok pattern

/-- Go `NewGlobRule`. -/
def NewGlobRule (pattern : String) (act : Action) : Except GErr Ruler :=
  match validateGlobPattern pattern with
  | .error e => .error e
  | .ok clean => .ok (.glob clean act)

-- MARK: Structural equality (gignore.go `rulesEqual`)

/-- Go `rulesEqual`: pattern keys and actions agree (variant is ignored). -/
def rulesEqual (left right : Ruler) : Bool :=
  decide (left.Pattern = right.Pattern) && decide (left.Action = right.Action)

-- MARK: Conflict classifier (conflict source file)

/-- Go `ConflictType` (a four-valued string enum in the source). -/
inductive ConflictType where
  | SEMANTIC_CONFLICT
  | REDUNDANT_RULE
  | UNREACHABLE_RULE
  | INEFFECTIVE_RULE
deriving DecidableEq, Repr

export ConflictType
  (SEMANTIC_CONFLICT REDUNDANT_RULE UNREACHABLE_RULE INEFFECTIVE_RULE)

/-- Go `Conflict` struct (fields `Left`, `Right`, `ConflictType`). -/
structure Conflict where
  left : Ruler
  right : Ruler
  ctype : ConflictType
deriving DecidableEq, Repr

/-- Go `dirModeSubsumes`. -/
def dirModeSubsumes (broader narrower : DirectoryMode) : Bool :=
  (decide (broader = RECURSIVE) &&
    (decide (narrower = DIRECTORY) || decide (narrower = CHILDREN))) ||
  (decide (broader = CHILDREN) && decide (narrower = DIRECTORY))

/-- Go `pathSubsumes`: the broader pattern is a prefix of the specific one. -/
def pathSubsumes (broader specific : String) : Bool := hasPre specific broader

/-- Go `pathStartsWith`. -/
def pathStartsWith (path pfx : String) : Bool := hasPre path pfx

/-- Go `directorySubsumes` (case switch on the specific rule's variant,
with the `default`/extension cases returning false). -/
def directorySubsumes (name : String) (mode : DirectoryMode) (act : Action)
    (specific : Ruler) : Bool :=
  match specific with
  | .dir n' m' a' =>
    if name = n' then dirModeSubsumes mode m'
    else pathSubsumes (Ruler.Pattern (.dir name mode act))
      (Ruler.Pattern (.dir n' m' a'))
  | .file _ _ => pathStartsWith specific.Pattern (name ++ "/")
  | .glob _ _ =>
    if mode = RECURSIVE then
      pathStartsWith specific.Pattern
        (dropSuf (Ruler.Pattern (.dir name mode act)) "/**")
    else false
  | .ext _ _ => false

/-- Go `globSubsumes`: only the `*.ext` shape over a `FileRule` is
recognised. -/
def globSubsumes (pattern : String) (other : Ruler) : Bool :=
  if hasPre pattern "*." then
    match other with
    | .file p _ => hasSuf p ("." ++ dropPre pattern "*.")
    | _ => false
  else false

/-- Go `extensionSubsumes`. -/
def extensionSubsumes (e : String) (other : Ruler) : Bool :=
  match other with
  | .file p _ => hasSuf p ("." ++ e)
  | .glob g _ => if hasSuf g ("." ++ e) then true else false
  | _ => false

/-- Go `subsumes`: dispatch on the broader rule's variant; `FileRule`s never
subsume. -/
def subsumes (left right : Ruler) : Bool :=
  match left with
  | .dir n m a => directorySubsumes n m a right
  | .glob g _ => globSubsumes g right
  | .ext e _ => extensionSubsumes e right
  | .file _ _ => false

/-- Go `ruleAffectsPatternSpace`: does an opposite-action exception rule
touch the pattern space between the broader and the specific rule. -/
def ruleAffectsPatternSpace (exception broader specific : Ruler) : Bool :=
  let broaderBase := dropSuf broader.Pattern "/**"
  if !(hasPre exception.Pattern broaderBase) then false
  else
    match specific with
    | .dir n m _ =>
      if m = DIRECTORY then hasPre exception.Pattern n
      else hasPre exception.Pattern broaderBase
    | .file _ _ =>
      hasPre specific.Pattern (dropPre exception.Pattern "!")
    | _ => hasPre exception.Pattern broaderBase

/-- Go `hasInterveningExceptions`: some intervening opposite-action rule
rescues the specific rule. -/
def hasInterveningExceptions (broader specific : Ruler)
    (intervening : List Ruler) : Bool :=
  intervening.any fun rule =>
    decide (rule.Action ≠ broader.Action) &&
      ruleAffectsPatternSpace rule broader specific

/-- The trailing EXCLUDE-before-INCLUDE check of Go `checkConflict`
(reached when the earlier branches fall through). -/
def ineffectiveCheck (left right : Ruler) : Option Conflict :=
  if left.Action = EXCLUDE ∧ right.Action = INCLUDE then
    if subsumes right left then some ⟨left, right, INEFFECTIVE_RULE⟩
    else none
  else none

/-- Go `checkConflict` (the `(Conflict, bool)` pair becomes an `Option`). -/
def checkConflict (left right : Ruler) (intervening : List Ruler) :
    Option Conflict :=
  if left.Pattern = right.Pattern then
    if left.Action ≠ right.Action then some ⟨left, right, SEMANTIC_CONFLICT⟩
    else some ⟨left, right, REDUNDANT_RULE⟩
  else if left.Action = right.Action then
    if subsumes left right then
      if hasInterveningExceptions left right intervening then none
      else some ⟨left, right, UNREACHABLE_RULE⟩
    else if subsumes right left then
      if hasInterveningExceptions right left intervening then none
      else some ⟨right, left, UNREACHABLE_RULE⟩
    else ineffectiveCheck left right
  else ineffectiveCheck left right

-- MARK: Results (results.go; the Go enums are int-backed, zero means unset)

/-- Go `ActionResult` values (`iota + 1`). -/
def REVIEW_RECOMMENDED : Nat := 1
/-- Go `ActionResult` FIXED. -/
def FIXED : Nat := 2
/-- Go `ActionResult` ADDED. -/
def ADDED : Nat := 3
/-- Go `ActionResult` MOVED. -/
def MOVED : Nat := 4
/-- Go `ActionResult` REMOVED. -/
def REMOVED : Nat := 5

/-- Go `ActionReason` values (`iota + 1`). -/
def REQUESTED : Nat := 1
/-- Go `ActionReason` AUTOMATED_FIX. -/
def AUTOMATED_FIX : Nat := 2
/-- Go `ActionReason` FIX_UNKNOWN. -/
def FIX_UNKNOWN : Nat := 3

/-- Go `Result` struct; `rule` is `none` for the zero value `Result{}`
(whose Go `Rule` interface field is nil, and whose enum fields are 0). -/
structure Result where
  rule : Option Ruler
  res : Nat
  reason : Nat
deriving DecidableEq, Repr

/-- The Go zero value `Result{}`. -/
def Result.zero : Result := ⟨none, 0, 0⟩

-- MARK: Ignore file container (gignore.go)

/-- Go `IgnoreFile`. -/
structure IgnoreFile where
  rules : List Ruler
deriving DecidableEq, Repr

/-- Go `NewIgnoreFile`. -/
def NewIgnoreFile : IgnoreFile := ⟨[]⟩

/-- Go `findRuleIndex`: first structural match, `-1` when absent. -/
def findRuleIndex (f : IgnoreFile) (target : Ruler) : Int :=
  match f.rules.findIdx? (fun rule => rulesEqual rule target) with
  | some i => (i : Int)
  | none => -1

/-- Go `ruleShouldComeBefore`. -/
def ruleShouldComeBefore (newRule existing : Ruler) : Bool :=
  decide (newRule.Action = existing.Action) && subsumes newRule existing

/-- Removal of the first structural match from a rule list (the loop body of
Go `deleteMatchingRule`); `none` when no rule matches. -/
def deleteFirst (rs : List Ruler) (target : Ruler) : Option (List Ruler) :=
  match rs with
  | [] => none
  | r :: rest =>
    if rulesEqual r target then some rest
    else (deleteFirst rest target).map (r :: ·)

/-- Go `deleteMatchingRule`. -/
def deleteMatchingRule (f : IgnoreFile) (target : Ruler) (reason : Nat) :
    Except GErr (IgnoreFile × Result) :=
  match deleteFirst f.rules target with
  | some rest => .ok (⟨rest⟩, ⟨some target, REMOVED, reason⟩)
  | none => .error .ruleNotFound

/-- Placeholder rule used only for list indexing already guarded by a bounds
check (Go indexing panics instead; the guarded paths never reach this). -/
def dummyRule : Ruler := .file "" INCLUDE

/-- Go low-level `moveRule(from, to)` on indices (Int, since callers pass
values derived from `findRuleIndex`). -/
def moveRuleIdx (f : IgnoreFile) (src dst : Int) : Except GErr IgnoreFile :=
  if src < 0 ∨ src ≥ (f.rules.length : Int) then .error .sourceIdxOutOfRange
  else if src = dst then .ok f
  else
    let rule := f.rules.getD src.toNat dummyRule
    let rest := f.rules.eraseIdx src.toNat
    let dst := if dst > src then dst - 1 else dst
    if dst < 0 ∨ dst > (rest.length : Int) then .error .targetIdxOutOfRange
    else .ok ⟨rest.take dst.toNat ++ rule :: rest.drop dst.toNat⟩

/-- Go `MoveDirection`. -/
inductive MoveDirection where
  | BEFORE
  | AFTER
deriving DecidableEq, Repr

export MoveDirection (BEFORE AFTER)

/-- Go `MoveRule`: relocate `ruleToMove` before/after `targetRule`, with the
no-op early returns yielding the zero `Result`. -/
def MoveRule (f : IgnoreFile) (ruleToMove targetRule : Ruler)
    (direction : MoveDirection) (reason : Nat) :
    Except GErr (IgnoreFile × Result) :=
  let moveIdx := findRuleIndex f ruleToMove
  let targetIdx := findRuleIndex f targetRule
  if moveIdx = -1 then .error .ruleToMoveNotFound
  else if targetIdx = -1 then .error .targetRuleNotFound
  else
    let check : Except GErr (Option Int) :=
      match direction with
      | BEFORE =>
        if moveIdx = targetIdx - 1 then .ok none else .ok (some targetIdx)
      | AFTER =>
        if moveIdx = targetIdx + 1 then .ok none
        else .ok (some (targetIdx + 1))
    match check with
    | .error e => .error e
    | .ok none => .ok (f, Result.zero)
    | .ok (some newIdx) =>
      if moveIdx = newIdx then .ok (f, Result.zero)
      else
        match moveRuleIdx f moveIdx newIdx with
        | .error e => .error e
        | .ok f' => .ok (f', ⟨some ruleToMove, MOVED, reason⟩)

-- MARK: Conflict detector (gignore.go `FindConflicts`)

/-- Go `FindConflicts`: classify every ordered pair `(i, j)` with `i < j`,
passing the rules strictly between them. -/
def FindConflicts (f : IgnoreFile) : List Conflict :=
  (List.range f.rules.length).flatMap fun i =>
    (List.range f.rules.length).filterMap fun j =>
      if i < j then
        checkConflict (f.rules.getD i dummyRule) (f.rules.getD j dummyRule)
          ((f.rules.drop (i + 1)).take (j - (i + 1)))
      else none

-- MARK: Conflict fixer (gignore.go)

/-- Go `fixConflict`: per-conflict-type repair strategy. -/
def fixConflict (f : IgnoreFile) (c : Conflict) :
    Except GErr (IgnoreFile × Result) :=
  match c.ctype with
  | REDUNDANT_RULE => deleteMatchingRule f c.left AUTOMATED_FIX
  | UNREACHABLE_RULE =>
    let leftIdx := findRuleIndex f c.left
    let rightIdx := findRuleIndex f c.right
    if rightIdx = leftIdx + 1 then deleteMatchingRule f c.right AUTOMATED_FIX
    else MoveRule f c.right c.left AFTER AUTOMATED_FIX
  | SEMANTIC_CONFLICT =>
    .ok (f, ⟨some c.left, REVIEW_RECOMMENDED, FIX_UNKNOWN⟩)
  | INEFFECTIVE_RULE => MoveRule f c.left c.right AFTER AUTOMATED_FIX

/-- One pass of the Go `FixConflicts` inner loop: apply `fixConflict` to each
detected conflict in order, stopping at the first error. -/
def fixPass (f : IgnoreFile) : List Conflict →
    IgnoreFile × List Result × Option GErr
  | [] => (f, [], none)
  | c :: cs =>
    match fixConflict f c with
    | .error e => (f, [], some e)
    | .ok (f', r) =>
      let next := fixPass f' cs
      (next.1, r :: next.2.1, next.2.2)

/-- Go `FixConflicts` instrumented with the number of detect-and-repair
passes actually performed (last component). -/
def FixConflictsFull (maxPasses : Nat) (f : IgnoreFile) :
    IgnoreFile × List Result × Option GErr × Nat :=
  match maxPasses with
  | 0 => (f, [], none, 0)
  | n + 1 =>
    let conflicts := FindConflicts f
    if conflicts.isEmpty then (f, [], none, 0)
    else
      match fixPass f conflicts with
      | (f', logs, some e) => (f', logs, some e, 1)
      | (f', logs, none) =>
        let next := FixConflictsFull n f'
        (next.1, logs ++ next.2.1, next.2.2.1, next.2.2.2 + 1)

/-- Go `FixConflicts` as seen by callers: mutated container, accumulated
`Result` log, and the error (`none` on success). -/
def FixConflicts (f : IgnoreFile) (maxPasses : Nat) :
    IgnoreFile × List Result × Option GErr :=
  let r := FixConflictsFull maxPasses f
  (r.1, r.2.1, r.2.2.1)

-- MARK: Smart insertion (gignore.go `addRuleWithConflictResolution`)

/-- The scan loop of Go `addRuleWithConflictResolution`: walk the existing
rules (with index `i` and the rules after the current one as intervening),
rejecting on the three insertion-conflict classes and otherwise computing
the ideal insertion point. -/
def addScanGo (rule : Ruler) : List Ruler → Nat → Nat → Except GErr Nat
  | [], _, ideal => .ok ideal
  | existing :: rest, i, ideal =>
    let step : Except GErr Nat :=
      match checkConflict existing rule rest with
      | some c =>
        match c.ctype with
        | SEMANTIC_CONFLICT => .error .semanticConflict
        | REDUNDANT_RULE => .error .redundantRule
        | UNREACHABLE_RULE => .error .unreachableRule
        | INEFFECTIVE_RULE => .ok i
      | none => .ok ideal
    match step with
    | .error e => .error e
    | .ok ideal1 =>
      let ideal2 :=
        if ruleShouldComeBefore rule existing ∧ i < ideal1 then i else ideal1
      addScanGo rule rest (i + 1) ideal2

/-- Go `addRuleWithConflictResolution`: on a rejection the container is the
untouched pre-call state; otherwise insert at the ideal point, run the fixer
with a 20-pass budget, and prepend the ADDED result. -/
def addRuleWithConflictResolution (f : IgnoreFile) (rule : Ruler) :
    IgnoreFile × List Result × Option GErr :=
  match addScanGo rule f.rules 0 f.rules.length with
  | .error e => (f, [], some e)
  | .ok ideal =>
    let f1 : IgnoreFile := ⟨f.rules.take ideal ++ rule :: f.rules.drop ideal⟩
    let fixed := FixConflicts f1 20
    match fixed.2.2 with
    | some e => (fixed.1, [], some e)
    | none => (fixed.1, ⟨some rule, ADDED, REQUESTED⟩ :: fixed.2.1, none)

-- MARK: Facade delete methods (gignore.go)

/-- Go `DeleteGlob`. -/
def DeleteGlob (f : IgnoreFile) (pattern : String) (action : Action) :
    Except GErr (IgnoreFile × Result) :=
  match NewGlobRule pattern action with
  | .error e => .error e
  | .ok target => deleteMatchingRule f target REQUESTED

/-- Go `DeleteExtension`. -/
def DeleteExtension (f : IgnoreFile) (e : String) (action : Action) :
    Except GErr (IgnoreFile × Result) :=
  match NewExtensionRule e action with
  | .error err => .error err
  | .ok target => deleteMatchingRule f target REQUESTED

-- MARK: Parser (parser source file)

/-- Go `isExtensionPattern`: `*.<token>` with no `/` and no further `*`
(Go slices bytes; all patterns here are ASCII so chars coincide). -/
def isExtensionPattern (line : String) : Bool :=
  hasPre line "*." &&
    !containsChar ⟨line.data.drop 2⟩ '/' &&
    !containsChar ⟨line.data.drop 2⟩ '*'

/-- Go `isDirectoryPattern`. -/
def isDirectoryPattern (line : String) : Bool :=
  hasSuf line "/" || hasSuf line "/*" || hasSuf line "/**" ||
    hasPre line "**/" || hasPre line "/"

/-- Go `parseDirectoryRule` (the `default` branch's invalid-directory error
is unreachable from `parseRule`, which only calls this on directory
patterns; it is mapped to the empty-name error value here). -/
def parseDirectoryRule (line : String) (action : Action) :
    Except GErr Ruler :=
  if hasSuf line "/**" then
    NewDirectoryRule (dropSuf line "/**") RECURSIVE action
  else if hasSuf line "/*" then
    NewDirectoryRule (dropSuf line "/*") CHILDREN action
  else if hasSuf line "/" then
    NewDirectoryRule (dropSuf line "/") DIRECTORY action
  else if hasPre line "**/" then
    NewDirectoryRule (dropPre line "**/") ANYWHERE action
  else if hasPre line "/" then
    NewDirectoryRule (dropPre line "/") ROOT_ONLY action
  else .error .emptyDirectoryName

/-- Go `isGlobPattern`. -/
def isGlobPattern (line : String) : Bool :=
  containsChar line '*' || containsChar line '?' || containsChar line '['

/-- The classification cascade of Go `parseRule` after the `!` has been
stripped into the action. -/
def classifyLine (line : String) (action : Action) : Except GErr Ruler :=
  if isExtensionPattern line then NewExtensionRule line action
  else if isDirectoryPattern line then parseDirectoryRule line action
  else if isGlobPattern line then NewGlobRule line action
  else NewFileRule line action

/-- Go `parseRule`: strip a leading `!` into the action, then classify the
line as extension, directory, glob, or file. -/
def parseRule (line : String) : Except GErr Ruler :=
  let action := if hasPre line "!" then EXCLUDE else INCLUDE
  let line := if hasPre line "!" then (⟨line.data.drop 1⟩ : String) else line
  classifyLine line action

/-- A rule renders to a single canonical line: its primary field is
nonempty, whitespace-trimmed, and free of the shapes that make the parser
classify the rendered line differently from how it was rendered (a leading
`!`, an extension/directory shape for file and glob rules, a slash or star
inside an extension, a leading/trailing slash in a directory name, or a
star inside an ANYWHERE/ROOT_ONLY directory name).  This is the precise
side condition under which the parse-render round trip holds. -/
def canonicalRule : Ruler → Prop
  | .file p _ => p ≠ "" ∧ trimStr p = p ∧ hasPre p "!" = false ∧
      isExtensionPattern p = false ∧ isDirectoryPattern p = false
  | .glob g _ => g ≠ "" ∧ trimStr g = g ∧ hasPre g "!" = false ∧
      isExtensionPattern g = false ∧ isDirectoryPattern g = false
  | .ext e _ => e ≠ "" ∧ trimStr e = e ∧ containsChar e '/' = false ∧
      containsChar e '*' = false
  | .dir n m _ => n ≠ "" ∧ trimStr n = n ∧ hasPre n "/" = false ∧
      hasSuf n "/" = false ∧ hasPre n "!" = false ∧
      ((m = ANYWHERE ∨ m = ROOT_ONLY) → containsChar n '*' = false)

-- MARK: String lemmas (parse/render round trip)

/-- Structure eta for strings. -/
@[simp] theorem strMk_data (s : String) : (⟨s.data⟩ : String) = s := rfl

/-- String append acts as list append on the underlying characters. -/
theorem strData_append (a b : String) : (a ++ b).data = a.data ++ b.data :=
  rfl

/-- Appending the empty string on the right. -/
@[simp] theorem strApp_empty (s : String) : s ++ "" = s :=
  congrArg String.mk (List.append_nil s.data)

/-- Appending the empty string on the left. -/
@[simp] theorem strEmpty_app (s : String) : "" ++ s = s := rfl

/-- String append is associative. -/
theorem strApp_assoc (a b c : String) : (a ++ b) ++ c = a ++ (b ++ c) :=
  congrArg String.mk (List.append_assoc a.data b.data c.data)

/-- A nonempty string's character list is a cons. -/
theorem strData_cons (s : String) (h : s ≠ "") : ∃ c r, s.data = c :: r := by
  cases hd : s.data with
  | nil =>
    have : s = ⟨[]⟩ := by rw [← hd]
    exact absurd this h
  | cons c r => exact ⟨c, r, rfl⟩

/-- A list is a Boolean prefix of itself extended by anything. -/
theorem isPrefixOf_self_app (l m : List Char) :
    l.isPrefixOf (l ++ m) = true := by
  induction l with
  | nil => simp [List.isPrefixOf]
  | cons c r ih => simp [List.isPrefixOf, ih]

/-- `HasPrefix` holds for an explicit left factor. -/
theorem hasPre_app (a b : String) : hasPre (a ++ b) a = true := by
  have hd : (a ++ b).data = a.data ++ b.data := rfl
  simp [hasPre, hd, isPrefixOf_self_app]

/-- `HasSuffix` holds for an explicit right factor. -/
theorem hasSuf_app (a b : String) : hasSuf (a ++ b) b = true := by
  simp [hasSuf, List.isSuffixOf, strData_append, List.reverse_append,
    isPrefixOf_self_app]

/-- `TrimPrefix` removes an explicit left factor. -/
theorem dropPre_app (a b : String) : dropPre (a ++ b) a = b := by
  rw [dropPre, if_pos (hasPre_app a b), strData_append, List.drop_left,
    strMk_data]

/-- `TrimSuffix` removes an explicit right factor. -/
theorem dropSuf_app (a b : String) : dropSuf (a ++ b) b = a := by
  rw [dropSuf, if_pos (hasSuf_app a b), strData_append, List.length_append,
    Nat.add_sub_cancel, List.take_left, strMk_data]

/-- A `!` prefix test on an explicit cons. -/
theorem hasPre_bang_cons (c : Char) (l : List Char) :
    hasPre ⟨c :: l⟩ "!" = ('!' == c) := by
  have hb : ("!" : String).data = ['!'] := rfl
  simp [hasPre, hb, List.isPrefixOf]

/-- A `!` prefix test ignores everything after the first character. -/
theorem hasPre_bang_app (n t : String) (hn : n ≠ "") :
    hasPre (n ++ t) "!" = hasPre n "!" := by
  obtain ⟨c, r, hd⟩ := strData_cons n hn
  have h1 : (n ++ t).data = c :: (r ++ t.data) := by
    rw [strData_append, hd]; rfl
  have hb : ("!" : String).data = ['!'] := rfl
  simp [hasPre, hb, h1, hd, List.isPrefixOf]

/-- If dropping leading whitespace changes nothing, the head is not
whitespace. -/
theorem head_not_ws_of_dropWhile_eq (l : List Char)
    (h : l.dropWhile isWs = l) : ∀ c r, l = c :: r → isWs c = false := by
  intro c r hl
  subst hl
  cases hw : isWs c with
  | false => rfl
  | true =>
    rw [List.dropWhile_cons, if_pos hw] at h
    have hs : (r.dropWhile isWs).Sublist r := List.dropWhile_sublist isWs
    have hlen := hs.length_le
    rw [h] at hlen
    simp at hlen

/-- A string equal to its own trim sheds no characters from either end. -/
theorem trimChars_spec (l : List Char) (h : trimChars l = l) :
    l.dropWhile isWs = l ∧ l.reverse.dropWhile isWs = l.reverse := by
  have s1 : (l.dropWhile isWs).Sublist l := List.dropWhile_sublist isWs
  have s2 : ((l.dropWhile isWs).reverse.dropWhile isWs).Sublist
      (l.dropWhile isWs).reverse := List.dropWhile_sublist isWs
  have hlen : (trimChars l).length = l.length := by rw [h]
  have e0 : (trimChars l).length =
      ((l.dropWhile isWs).reverse.dropWhile isWs).length := by
    simp [trimChars]
  have h2 : ((l.dropWhile isWs).reverse.dropWhile isWs).length =
      l.length := by rw [← e0, hlen]
  have le1 := s2.length_le
  rw [List.length_reverse] at le1
  have le2 := s1.length_le
  have eq2 : (l.dropWhile isWs).length = l.length := by omega
  have hfix1 : l.dropWhile isWs = l := s1.eq_of_length eq2
  refine ⟨hfix1, ?_⟩
  have hrev : (l.reverse.dropWhile isWs).reverse = l := by
    have ht : trimChars l = (l.reverse.dropWhile isWs).reverse := by
      rw [trimChars, hfix1]
    rw [← ht, h]
  have := congrArg List.reverse hrev
  simpa using this

/-- A trim-stable nonempty string has non-whitespace boundary characters. -/
theorem trim_stable_bounds (s : String) (ht : trimStr s = s) :
    (∀ c r, s.data = c :: r → isWs c = false) ∧
    (∀ c r, s.data.reverse = c :: r → isWs c = false) := by
  have hd : trimChars s.data = s.data := congrArg String.data ht
  obtain ⟨h1, h2⟩ := trimChars_spec s.data hd
  exact ⟨head_not_ws_of_dropWhile_eq _ h1,
    head_not_ws_of_dropWhile_eq _ h2⟩

/-- A character list with non-whitespace boundary characters is its own
trim. -/
theorem trimChars_keep (l : List Char)
    (h1 : ∀ c r, l = c :: r → isWs c = false)
    (h2 : ∀ c r, l.reverse = c :: r → isWs c = false) :
    trimChars l = l := by
  rcases l with _ | ⟨c, r⟩
  · rfl
  · have hc : isWs c = false := h1 c r rfl
    rw [trimChars, List.dropWhile_cons, if_neg (by simp [hc])]
    rcases hrev : (c :: r).reverse with _ | ⟨d, r2⟩
    · exact absurd (congrArg List.length hrev) (by simp)
    · have hd : isWs d = false := h2 d r2 hrev
      rw [List.dropWhile_cons, if_neg (by simp [hd]), ← hrev,
        List.reverse_reverse]

/-- Strings with non-whitespace boundary characters are trim-stable. -/
theorem trim_self_of_bounds (s : String)
    (h1 : ∀ c r, s.data = c :: r → isWs c = false)
    (h2 : ∀ c r, s.data.reverse = c :: r → isWs c = false) :
    trimStr s = s :=
  congrArg String.mk (trimChars_keep s.data h1 h2)

-- MARK: Parse / render round-trip lemmas

/-- Structural equality is reflexive. -/
theorem rulesEqual_refl (r : Ruler) : rulesEqual r r = true := by
  simp [rulesEqual]

/-- Parsing a rendered line whose key has no leading `!` reduces to
classifying the key under the rendered action. -/
theorem parseRule_strip (key : String) (a : Action)
    (hk : hasPre key "!" = false) :
    parseRule (a.pre ++ key) = classifyLine key a := by
  cases a
  · rw [show (Action.pre INCLUDE ++ key) = key from rfl]
    simp [parseRule, hk]
  · rw [show (Action.pre EXCLUDE ++ key) = "!" ++ key from rfl]
    have h1 : hasPre ("!" ++ key) "!" = true := hasPre_app "!" key
    have h2 : (⟨("!" ++ key).data.drop 1⟩ : String) = key := rfl
    simp [parseRule, h1, h2]

/-- A line that is neither extension- nor directory-shaped classifies as a
glob or a file rule carrying the line verbatim. -/
theorem classify_fileglob (p : String) (a : Action) (hp : p ≠ "")
    (ht : trimStr p = p) (hext : isExtensionPattern p = false)
    (hdir : isDirectoryPattern p = false) :
    classifyLine p a = .ok (.glob p a) ∨
      classifyLine p a = .ok (.file p a) := by
  rw [classifyLine]
  simp only [hext, hdir, Bool.false_eq_true, if_false]
  cases hg : isGlobPattern p
  · right
    simp [NewFileRule, validatePath, ht, hp]
  · left
    simp [NewGlobRule, validateGlobPattern, ht, hp]

/-- An extension-canonical key `*.e` classifies back to the very same
extension rule. -/
theorem classify_ext (e : String) (a : Action) (he : e ≠ "")
    (ht : trimStr e = e) (hsl : containsChar e '/' = false)
    (hst : containsChar e '*' = false) :
    classifyLine ("*." ++ e) a = .ok (.ext e a) := by
  have hdata : ("*." ++ e).data = '*' :: '.' :: e.data := rfl
  have hpre : hasPre ("*." ++ e) "*." = true := hasPre_app "*." e
  have hdrop : (⟨("*." ++ e).data.drop 2⟩ : String) = e := rfl
  have hisext : isExtensionPattern ("*." ++ e) = true := by
    rw [isExtensionPattern, hpre, hdrop, hsl, hst]
    rfl
  have htr : trimStr ("*." ++ e) = "*." ++ e := by
    apply trim_self_of_bounds
    · intro c r h
      rw [hdata] at h
      injection h with h1 _
      rw [← h1]; rfl
    · intro c r h
      have hr : ('*' :: '.' :: e.data).reverse =
          e.data.reverse ++ ['.', '*'] := by simp
      rw [hdata, hr] at h
      rcases he2 : e.data.reverse with _ | ⟨d, r2⟩ <;> rw [he2] at h
      · simp at h
        obtain ⟨h1, -⟩ := h
        subst h1; rfl
      · simp at h
        obtain ⟨h1, -⟩ := h
        subst h1
        exact (trim_stable_bounds e ht).2 _ r2 he2
  rw [classifyLine, if_pos hisext]
  simp [NewExtensionRule, validateExtension, htr, dropPre_app, he]

/-- A line whose tail factor holds a slash is never extension-shaped. -/
theorem isExt_false_slash_tail (l t : List Char) (ht : '/' ∈ t) :
    isExtensionPattern ⟨l ++ t⟩ = false := by
  rw [isExtensionPattern]
  cases hp : hasPre ⟨l ++ t⟩ "*."
  · rfl
  · have hb : ("*." : String).data = ['*', '.'] := rfl
    have hp2 : (['*', '.'] : List Char).isPrefixOf (l ++ t) = true := by
      have h0 := hp
      rw [hasPre, hb] at h0
      exact h0
    obtain ⟨rest, hrest⟩ := List.isPrefixOf_iff_prefix.mp hp2
    have hmem : '/' ∈ (['*', '.'] : List Char) ++ rest := by
      rw [hrest]
      exact List.mem_append.mpr (Or.inr ht)
    rw [List.mem_append] at hmem
    have hrest2 : '/' ∈ rest := by
      rcases hmem with h | h
      · exact absurd h (by decide)
      · exact h
    have hdrop : (l ++ t).drop 2 = rest := by
      rw [← hrest]
      rfl
    have hcont : containsChar ⟨(⟨l ++ t⟩ : String).data.drop 2⟩ '/' =
        true := by
      show containsChar ⟨(l ++ t).drop 2⟩ '/' = true
      rw [hdrop, containsChar]
      exact List.any_eq_true.mpr ⟨'/', hrest2, rfl⟩
    rw [hcont]
    rfl

/-- A line whose first character is not `*` is never extension-shaped. -/
theorem isExt_false_head (c : Char) (l : List Char)
    (h : ('*' == c) = false) : isExtensionPattern ⟨c :: l⟩ = false := by
  rw [isExtensionPattern]
  have hb : ("*." : String).data = ['*', '.'] := rfl
  have hp : hasPre ⟨c :: l⟩ "*." = false := by
    rw [hasPre, hb]
    simp [List.isPrefixOf, h]
  rw [hp]
  rfl

/-- A line whose second character is not `.` is never extension-shaped. -/
theorem isExt_false_head2 (c1 c2 : Char) (l : List Char)
    (h : ('.' == c2) = false) :
    isExtensionPattern ⟨c1 :: c2 :: l⟩ = false := by
  rw [isExtensionPattern]
  have hb : ("*." : String).data = ['*', '.'] := rfl
  have hp : hasPre ⟨c1 :: c2 :: l⟩ "*." = false := by
    rw [hasPre, hb]
    simp [List.isPrefixOf, h]
  rw [hp]
  rfl

/-- A suffix test fails whenever the last characters disagree. -/
theorem hasSuf_false_of_lastNe (s p : String) (c : Char) (r : List Char)
    (hs : s.data.reverse = c :: r) (q : Char) (qr : List Char)
    (hq : p.data.reverse = q :: qr) (h : (q == c) = false) :
    hasSuf s p = false := by
  rw [hasSuf, List.isSuffixOf, hs, hq]
  simp [List.isPrefixOf, h]

/-- The last character of a directory-canonical name is neither `/` nor
(under the star-free hypothesis) `*`. -/
theorem lastChar_facts (n : String) (hn : n ≠ "")
    (hsuf : hasSuf n "/" = false) (hstar : containsChar n '*' = false) :
    ∃ c r, n.data.reverse = c :: r ∧ ('/' == c) = false ∧
      ('*' == c) = false := by
  obtain ⟨c0, r0, hd⟩ := strData_cons n hn
  rcases hrev : n.data.reverse with _ | ⟨c, r⟩
  · rw [List.reverse_eq_nil_iff, hd] at hrev
    exact absurd hrev (by simp)
  · refine ⟨c, r, rfl, ?_, ?_⟩
    · rw [hasSuf, List.isSuffixOf] at hsuf
      have hb : ("/" : String).data.reverse = ['/'] := rfl
      rw [hb, hrev] at hsuf
      simpa [List.isPrefixOf] using hsuf
    · have hc : c ∈ n.data := by
        have h1 : c ∈ n.data.reverse := by
          rw [hrev]
          exact List.mem_cons_self c r
        simpa using h1
      rw [containsChar, List.any_eq_false] at hstar
      have h2 : c ≠ '*' := by simpa using hstar c hc
      simp [beq_eq_false_iff_ne]
      exact fun hh => h2 hh.symm

/-- Appending a tail with a non-whitespace final character to a trim-stable
nonempty string is trim-stable. -/
theorem trim_app_right (n t : String) (hn : n ≠ "") (htn : trimStr n = n)
    (htl : ∀ c r, t.data.reverse = c :: r → isWs c = false) (htne : t ≠ "") :
    trimStr (n ++ t) = n ++ t := by
  apply trim_self_of_bounds
  · intro c r h
    obtain ⟨c0, r0, hd⟩ := strData_cons n hn
    rw [strData_append, hd] at h
    have h' : c0 :: (r0 ++ t.data) = c :: r := by simpa using h
    injection h' with h1 _
    rw [← h1]
    exact (trim_stable_bounds n htn).1 c0 r0 hd
  · intro c r h
    rcases hrt : t.data.reverse with _ | ⟨d, rd⟩
    · obtain ⟨c1, r1, hd1⟩ := strData_cons t htne
      rw [List.reverse_eq_nil_iff, hd1] at hrt
      exact absurd hrt (by simp)
    · rw [strData_append, List.reverse_append, hrt] at h
      have h' : d :: (rd ++ n.data.reverse) = c :: r := by simpa using h
      injection h' with h1 _
      rw [← h1]
      exact htl d rd hrt

/-- Prepending a head with a non-whitespace first character to a trim-stable
nonempty string is trim-stable. -/
theorem trim_app_left (t n : String) (hn : n ≠ "") (htn : trimStr n = n)
    (hth : ∀ c r, t.data = c :: r → isWs c = false) (htne : t ≠ "") :
    trimStr (t ++ n) = t ++ n := by
  apply trim_self_of_bounds
  · intro c r h
    obtain ⟨c0, r0, hd⟩ := strData_cons t htne
    rw [strData_append, hd] at h
    have h' : c0 :: (r0 ++ n.data) = c :: r := by simpa using h
    injection h' with h1 _
    rw [← h1]
    exact hth c0 r0 hd
  · intro c r h
    rcases hrn : n.data.reverse with _ | ⟨d, rd⟩
    · obtain ⟨c1, r1, hd1⟩ := strData_cons n hn
      rw [List.reverse_eq_nil_iff, hd1] at hrn
      exact absurd hrn (by simp)
    · rw [strData_append, List.reverse_append, hrn] at h
      have h' : d :: (rd ++ t.data.reverse) = c :: r := by simpa using h
      injection h' with h1 _
      rw [← h1]
      exact (trim_stable_bounds n htn).2 d rd hrn

/-- A directory constructor leaves a canonical name untouched. -/
theorem newDir_stable (n : String) (m : DirectoryMode) (a : Action)
    (hn : n ≠ "") (ht : trimStr n = n) (hp : hasPre n "/" = false)
    (hs : hasSuf n "/" = false) :
    NewDirectoryRule n m a = .ok (.dir n m a) := by
  simp [NewDirectoryRule, validateDirectoryName, ht, dropPre, hp, dropSuf,
    hs, hn]

/-- A suffix test fails whenever one of the last two characters
disagrees. -/
theorem hasSuf_false_two (s p : String) (c1 c2 : Char) (r : List Char)
    (hs : s.data.reverse = c1 :: c2 :: r) (q1 q2 : Char) (qr : List Char)
    (hq : p.data.reverse = q1 :: q2 :: qr)
    (h : ((q1 == c1) && (q2 == c2)) = false) : hasSuf s p = false := by
  rw [hasSuf, List.isSuffixOf, hs, hq]
  cases hq1 : (q1 == c1) with
  | false => simp [List.isPrefixOf, hq1]
  | true =>
    have hq2 : (q2 == c2) = false := by
      rw [hq1] at h
      simpa using h
    simp [List.isPrefixOf, hq1, hq2]

/-- A prefix test fails whenever the first characters disagree. -/
theorem hasPre_false_of_headNe (s p : String) (c : Char) (r : List Char)
    (hs : s.data = c :: r) (q : Char) (qr : List Char)
    (hq : p.data = q :: qr) (h : (q == c) = false) : hasPre s p = false := by
  rw [hasPre, hs, hq]
  simp [List.isPrefixOf, h]

/-- A directory-canonical name in any mode classifies back to the very same
directory rule. -/
theorem classify_dir (n : String) (m : DirectoryMode) (a : Action)
    (hn : n ≠ "") (ht : trimStr n = n) (hp : hasPre n "/" = false)
    (hs : hasSuf n "/" = false)
    (hstar : (m = ANYWHERE ∨ m = ROOT_ONLY) → containsChar n '*' = false) :
    classifyLine ((modePre m ++ n) ++ modeSuf m) a = .ok (.dir n m a) := by
  cases m
  case DIRECTORY =>
    show classifyLine (n ++ "/") a = .ok (.dir n DIRECTORY a)
    have hrev : (n ++ "/").data.reverse = '/' :: n.data.reverse := by
      rw [strData_append, List.reverse_append]
      rfl
    have hext : isExtensionPattern (n ++ "/") = false :=
      isExt_false_slash_tail n.data ['/'] (by decide)
    have h1 : hasSuf (n ++ "/") "/**" = false :=
      hasSuf_false_of_lastNe _ _ '/' n.data.reverse hrev '*' ['*', '/']
        rfl rfl
    have h2 : hasSuf (n ++ "/") "/*" = false :=
      hasSuf_false_of_lastNe _ _ '/' n.data.reverse hrev '*' ['/'] rfl rfl
    have h3 : hasSuf (n ++ "/") "/" = true := hasSuf_app n "/"
    have hdir : isDirectoryPattern (n ++ "/") = true := by
      rw [isDirectoryPattern, h3]
      rfl
    rw [classifyLine]
    simp only [hext, hdir, Bool.false_eq_true, if_false, if_true]
    rw [parseDirectoryRule]
    simp only [h1, h2, h3, Bool.false_eq_true, if_false, if_true]
    rw [dropSuf_app]
    exact newDir_stable n DIRECTORY a hn ht hp hs
  case CHILDREN =>
    show classifyLine (n ++ "/*") a = .ok (.dir n CHILDREN a)
    have hrev : (n ++ "/*").data.reverse = '*' :: '/' :: n.data.reverse := by
      rw [strData_append, List.reverse_append]
      rfl
    have hext : isExtensionPattern (n ++ "/*") = false :=
      isExt_false_slash_tail n.data ['/', '*'] (by decide)
    have h1 : hasSuf (n ++ "/*") "/**" = false :=
      hasSuf_false_two _ _ '*' '/' n.data.reverse hrev '*' '*' ['/'] rfl rfl
    have h2 : hasSuf (n ++ "/*") "/*" = true := hasSuf_app n "/*"
    have h0 : hasSuf (n ++ "/*") "/" = false :=
      hasSuf_false_of_lastNe _ _ '*' ('/' :: n.data.reverse) hrev '/' []
        rfl rfl
    have hdir : isDirectoryPattern (n ++ "/*") = true := by
      rw [isDirectoryPattern, h0, h2]
      rfl
    rw [classifyLine]
    simp only [hext, hdir, Bool.false_eq_true, if_false, if_true]
    rw [parseDirectoryRule]
    simp only [h1, h2, Bool.false_eq_true, if_false, if_true]
    rw [dropSuf_app]
    exact newDir_stable n CHILDREN a hn ht hp hs
  case RECURSIVE =>
    show classifyLine (n ++ "/**") a = .ok (.dir n RECURSIVE a)
    have hext : isExtensionPattern (n ++ "/**") = false :=
      isExt_false_slash_tail n.data ['/', '*', '*'] (by decide)
    have hrev : (n ++ "/**").data.reverse =
        '*' :: '*' :: '/' :: n.data.reverse := by
      rw [strData_append, List.reverse_append]
      rfl
    have h1 : hasSuf (n ++ "/**") "/**" = true := hasSuf_app n "/**"
    have h0 : hasSuf (n ++ "/**") "/" = false :=
      hasSuf_false_of_lastNe _ _ '*' ('*' :: '/' :: n.data.reverse) hrev
        '/' [] rfl rfl
    have h2 : hasSuf (n ++ "/**") "/*" = false :=
      hasSuf_false_two _ _ '*' '*' ('/' :: n.data.reverse) hrev '*' '/' []
        rfl rfl
    have hdir : isDirectoryPattern (n ++ "/**") = true := by
      rw [isDirectoryPattern, h0, h2, h1]
      rfl
    rw [classifyLine]
    simp only [hext, hdir, Bool.false_eq_true, if_false, if_true]
    rw [parseDirectoryRule]
    simp only [h1, if_true]
    rw [dropSuf_app]
    exact newDir_stable n RECURSIVE a hn ht hp hs
  case ANYWHERE =>
    have hst := hstar (Or.inl rfl)
    obtain ⟨c, r, hrevn, hslash, hstarc⟩ := lastChar_facts n hn hs hst
    show classifyLine (("**/" ++ n) ++ "") a = .ok (.dir n ANYWHERE a)
    rw [strApp_empty]
    have hext : isExtensionPattern ("**/" ++ n) = false :=
      isExt_false_head2 '*' '*' ('/' :: n.data) rfl
    have hrev : ("**/" ++ n).data.reverse = c :: (r ++ ['/', '*', '*']) := by
      rw [strData_append, List.reverse_append, hrevn]
      rfl
    have h1 : hasSuf ("**/" ++ n) "/" = false :=
      hasSuf_false_of_lastNe _ _ c _ hrev '/' [] rfl hslash
    have h2 : hasSuf ("**/" ++ n) "/*" = false :=
      hasSuf_false_of_lastNe _ _ c _ hrev '*' ['/'] rfl hstarc
    have h3 : hasSuf ("**/" ++ n) "/**" = false :=
      hasSuf_false_of_lastNe _ _ c _ hrev '*' ['*', '/'] rfl hstarc
    have h4 : hasPre ("**/" ++ n) "**/" = true := hasPre_app "**/" n
    have hdir : isDirectoryPattern ("**/" ++ n) = true := by
      rw [isDirectoryPattern, h1, h2, h3, h4]
      rfl
    rw [classifyLine]
    simp only [hext, hdir, Bool.false_eq_true, if_false, if_true]
    rw [parseDirectoryRule]
    simp only [h1, h2, h3, h4, Bool.false_eq_true, if_false, if_true]
    rw [dropPre_app]
    exact newDir_stable n ANYWHERE a hn ht hp hs
  case ROOT_ONLY =>
    have hst := hstar (Or.inr rfl)
    obtain ⟨c, r, hrevn, hslash, hstarc⟩ := lastChar_facts n hn hs hst
    show classifyLine (("/" ++ n) ++ "") a = .ok (.dir n ROOT_ONLY a)
    rw [strApp_empty]
    have hext : isExtensionPattern ("/" ++ n) = false :=
      isExt_false_head '/' n.data rfl
    have hrev : ("/" ++ n).data.reverse = c :: (r ++ ['/']) := by
      rw [strData_append, List.reverse_append, hrevn]
      rfl
    have h1 : hasSuf ("/" ++ n) "/" = false :=
      hasSuf_false_of_lastNe _ _ c _ hrev '/' [] rfl hslash
    have h2 : hasSuf ("/" ++ n) "/*" = false :=
      hasSuf_false_of_lastNe _ _ c _ hrev '*' ['/'] rfl hstarc
    have h3 : hasSuf ("/" ++ n) "/**" = false :=
      hasSuf_false_of_lastNe _ _ c _ hrev '*' ['*', '/'] rfl hstarc
    have h4 : hasPre ("/" ++ n) "**/" = false :=
      hasPre_false_of_headNe _ _ '/' n.data rfl '*' ['*', '/'] rfl rfl
    have h5 : hasPre ("/" ++ n) "/" = true := hasPre_app "/" n
    have hdir : isDirectoryPattern ("/" ++ n) = true := by
      rw [isDirectoryPattern, h1, h2, h3, h4, h5]
      rfl
    rw [classifyLine]
    simp only [hext, hdir, Bool.false_eq_true, if_false, if_true]
    rw [parseDirectoryRule]
    simp only [h1, h2, h3, h4, h5, Bool.false_eq_true, if_false, if_true]
    rw [dropPre_app]
    exact newDir_stable n ROOT_ONLY a hn ht hp hs

/-- An extension rule renders as its action prefix before its key. -/
theorem render_ext (e : String) (a : Action) :
    Ruler.Render (.ext e a) = a.pre ++ ("*." ++ e) :=
  strApp_assoc a.pre "*." e

/-- A directory rule renders as its action prefix before its key. -/
theorem render_dir (n : String) (m : DirectoryMode) (a : Action) :
    Ruler.Render (.dir n m a) = a.pre ++ ((modePre m ++ n) ++ modeSuf m) := by
  show ((a.pre ++ modePre m) ++ n) ++ modeSuf m = _
  rw [strApp_assoc (a.pre ++ modePre m) n (modeSuf m),
    strApp_assoc a.pre (modePre m) (n ++ modeSuf m),
    ← strApp_assoc (modePre m) n (modeSuf m)]

/-- The rendered key of a directory-canonical rule never starts with `!`. -/
theorem dirKey_noBang (n : String) (m : DirectoryMode) (hn : n ≠ "")
    (hb : hasPre n "!" = false) :
    hasPre ((modePre m ++ n) ++ modeSuf m) "!" = false := by
  cases m
  case DIRECTORY =>
    show hasPre (n ++ "/") "!" = false
    rw [hasPre_bang_app n "/" hn]
    exact hb
  case CHILDREN =>
    show hasPre (n ++ "/*") "!" = false
    rw [hasPre_bang_app n "/*" hn]
    exact hb
  case RECURSIVE =>
    show hasPre (n ++ "/**") "!" = false
    rw [hasPre_bang_app n "/**" hn]
    exact hb
  case ANYWHERE =>
    show hasPre (("**/" ++ n) ++ "") "!" = false
    rw [strApp_empty]
    exact (hasPre_bang_cons '*' ('*' :: '/' :: n.data)).trans rfl
  case ROOT_ONLY =>
    show hasPre (("/" ++ n) ++ "") "!" = false
    rw [strApp_empty]
    exact (hasPre_bang_cons '/' n.data).trans rfl

-- MARK: Shared lemmas

/-- A container with no detected conflicts is a fixpoint of the fixer: any
pass budget returns it unchanged with no log entries and zero passes. -/
theorem fixFull_noConflicts (f : IgnoreFile) (h : FindConflicts f = [])
    (n : Nat) : FixConflictsFull n f = (f, [], none, 0) := by
  cases n with
  | zero => rfl
  | succ n => simp [FixConflictsFull, h]

/-- The insertion scan only ever fails with one of the three
insertion-conflict errors. -/
theorem addScanGo_error_cases (rule : Ruler) :
    ∀ (rs : List Ruler) (i ideal : Nat) (e : GErr),
      addScanGo rule rs i ideal = .error e →
      e = .semanticConflict ∨ e = .redundantRule ∨ e = .unreachableRule := by
  intro rs
  induction rs with
  | nil => intro i ideal e h; exact absurd h (by simp [addScanGo])
  | cons existing rest ih =>
    intro i ideal e h
    rw [addScanGo] at h
    rcases hc : checkConflict existing rule rest with _ | ⟨cl, cr, ct⟩ <;>
      rw [hc] at h
    · exact ih _ _ _ h
    · cases ct
      case SEMANTIC_CONFLICT => simp at h; subst h; simp
      case REDUNDANT_RULE => simp at h; subst h; simp
      case UNREACHABLE_RULE => simp at h; subst h; simp
      case INEFFECTIVE_RULE => exact ih _ _ _ h

-- MARK: Claim theorems

/-- C1: whenever the insertion scan of `add` rejects the new rule, the error
is one of semantic-conflict, redundant-rule, or unreachable-rule, and the
returned container is exactly the untouched pre-call container with no
results. (Scenario E is the witness below.) -/
theorem claim1_add_rejection (f : IgnoreFile) (rule : Ruler) (e : GErr)
    (h : addScanGo rule f.rules 0 f.rules.length = .error e) :
    (e = .semanticConflict ∨ e = .redundantRule ∨ e = .unreachableRule) ∧
      addRuleWithConflictResolution f rule = (f, [], some e) := by
  refine ⟨addScanGo_error_cases rule f.rules 0 f.rules.length e h, ?_⟩
  simp [addRuleWithConflictResolution, h]

/-- C1 witness, Scenario E: adding `todo.txt` (INCLUDE) to `[*.txt]` is
rejected with the unreachable-rule error and the container is unchanged. -/
theorem claim1_add_rejection_witness :
    addRuleWithConflictResolution ⟨[.ext "txt" INCLUDE]⟩
        (.file "todo.txt" INCLUDE) =
      (⟨[.ext "txt" INCLUDE]⟩, [], some .unreachableRule) :=
  (claim1_add_rejection ⟨[.ext "txt" INCLUDE]⟩ (.file "todo.txt" INCLUDE)
    .unreachableRule rfl).2

/-- C2 counterexample: on `[build/, !build/important.txt, build/**]` the
detector does NOT return the empty list (the pair
`(!build/important.txt, build/**)` is reported). -/
theorem claim2_cex :
    FindConflicts ⟨[.dir "build" DIRECTORY INCLUDE,
        .file "build/important.txt" EXCLUDE,
        .dir "build" RECURSIVE INCLUDE]⟩ ≠ [] := by decide

/-- C2 amended: on `[build/, !build/important.txt, build/**]` the detector
returns exactly one conflict — the INEFFECTIVE_RULE pair
`(!build/important.txt, build/**)` — while the reversed-subsumption pair of
same-action directory rules `(build/, build/**)` is rescued by the
intervening exception and not reported. -/
theorem claim2_amended :
    FindConflicts ⟨[.dir "build" DIRECTORY INCLUDE,
        .file "build/important.txt" EXCLUDE,
        .dir "build" RECURSIVE INCLUDE]⟩ =
      [⟨.file "build/important.txt" EXCLUDE,
        .dir "build" RECURSIVE INCLUDE, INEFFECTIVE_RULE⟩] ∧
    checkConflict (.dir "build" DIRECTORY INCLUDE)
        (.dir "build" RECURSIVE INCLUDE)
        [.file "build/important.txt" EXCLUDE] = none := by
  constructor <;> decide

/-- C4: repairing an UNREACHABLE_RULE conflict deletes the specific rule
(Right) when it sits immediately after the broader rule (Left) and moves it
to just after Left otherwise; and for every positive pass budget,
fixing `[build/**, build/]` yields `[build/**]` with exactly one REMOVED
result in a single pass. -/
theorem claim4_unreachable_fix :
    (∀ (f : IgnoreFile) (c : Conflict), c.ctype = UNREACHABLE_RULE →
      fixConflict f c =
        if findRuleIndex f c.right = findRuleIndex f c.left + 1 then
          deleteMatchingRule f c.right AUTOMATED_FIX
        else MoveRule f c.right c.left AFTER AUTOMATED_FIX) ∧
    (∀ n : Nat,
      FixConflictsFull (n + 1)
          ⟨[.dir "build" RECURSIVE INCLUDE, .dir "build" DIRECTORY INCLUDE]⟩ =
        (⟨[.dir "build" RECURSIVE INCLUDE]⟩,
          [⟨some (.dir "build" DIRECTORY INCLUDE), REMOVED, AUTOMATED_FIX⟩],
          none, 1)) := by
  constructor
  · intro f c h
    rw [fixConflict, h]
  · intro n
    have h0 : FindConflicts ⟨[(.dir "build" RECURSIVE INCLUDE : Ruler)]⟩ =
        [] := by decide
    rw [FixConflictsFull]
    have h1 : FindConflicts
        ⟨[.dir "build" RECURSIVE INCLUDE, .dir "build" DIRECTORY INCLUDE]⟩ =
        [⟨.dir "build" RECURSIVE INCLUDE, .dir "build" DIRECTORY INCLUDE,
          UNREACHABLE_RULE⟩] := by decide
    rw [h1]
    have h2 : fixPass
        ⟨[.dir "build" RECURSIVE INCLUDE, .dir "build" DIRECTORY INCLUDE]⟩
        [⟨.dir "build" RECURSIVE INCLUDE, .dir "build" DIRECTORY INCLUDE,
          UNREACHABLE_RULE⟩] =
        (⟨[.dir "build" RECURSIVE INCLUDE]⟩,
          [⟨some (.dir "build" DIRECTORY INCLUDE), REMOVED, AUTOMATED_FIX⟩],
          none) := by decide
    simp only [List.isEmpty_cons, h2, fixFull_noConflicts _ h0]
    rfl

/-- C4 witness: the general branch of the claim applied to the concrete
UNREACHABLE_RULE conflict of Scenario B, where the specific rule is
adjacent after the broader one, so it is deleted. -/
theorem claim4_unreachable_fix_witness :
    fixConflict ⟨[.dir "build" RECURSIVE INCLUDE, .dir "build" DIRECTORY
      INCLUDE]⟩ ⟨.dir "build" RECURSIVE INCLUDE, .dir "build" DIRECTORY
      INCLUDE, UNREACHABLE_RULE⟩ =
    .ok (⟨[.dir "build" RECURSIVE INCLUDE]⟩,
      ⟨some (.dir "build" DIRECTORY INCLUDE), REMOVED, AUTOMATED_FIX⟩) := by
  rw [claim4_unreachable_fix.1 _ _ rfl]
  rfl

/-- C5: the subsumption predicate is irreflexive — no rule of any variant
subsumes itself. -/
theorem claim5_subsumes_irrefl (r : Ruler) : subsumes r r = false := by
  cases r with
  | file p a => rfl
  | ext e a => rfl
  | glob g a =>
    simp only [subsumes, globSubsumes]
    split <;> rfl
  | dir n m a =>
    simp only [subsumes, directorySubsumes, if_pos rfl]
    cases m <;> rfl

/-- C6: when the later rule subsumes the earlier one (and not conversely),
patterns differ, actions agree, and no intervening exception rescues the
pair, the classifier emits UNREACHABLE_RULE with the sides swapped:
Left is the broader later rule, Right the specific earlier rule. -/
theorem claim6_swapped_unreachable (L R : Ruler) (intervening : List Ruler)
    (hp : L.Pattern ≠ R.Pattern) (ha : L.Action = R.Action)
    (hrl : subsumes R L = true) (hlr : subsumes L R = false)
    (hres : hasInterveningExceptions R L intervening = false) :
    checkConflict L R intervening = some ⟨R, L, UNREACHABLE_RULE⟩ := by
  rw [checkConflict, if_neg hp, if_pos ha, hlr, hrl, hres]
  rfl

/-- C6 witness: `build/` before `build/**` (both INCLUDE, nothing between)
is classified UNREACHABLE_RULE with Left = `build/**`, Right = `build/`. -/
theorem claim6_swapped_unreachable_witness :
    checkConflict (.dir "build" DIRECTORY INCLUDE)
        (.dir "build" RECURSIVE INCLUDE) [] =
      some ⟨.dir "build" RECURSIVE INCLUDE, .dir "build" DIRECTORY INCLUDE,
        UNREACHABLE_RULE⟩ :=
  claim6_swapped_unreachable (.dir "build" DIRECTORY INCLUDE)
    (.dir "build" RECURSIVE INCLUDE) [] (by decide) (by decide) (by decide)
    (by decide) (by decide)

/-- C7: the fixer is a total function that performs at most `maxPasses`
detect-and-repair passes, for every container — in particular also when a
pass repairs nothing (e.g. only SEMANTIC_CONFLICT remains) and the conflict
set never becomes empty. -/
theorem claim7_fixer_pass_bound (n : Nat) (f : IgnoreFile) :
    (FixConflictsFull n f).2.2.2 ≤ n := by
  induction n generalizing f with
  | zero => simp [FixConflictsFull]
  | succ n ih =>
    rw [FixConflictsFull]
    split
    · simp
    · rcases h : fixPass f (FindConflicts f) with ⟨f', logs, err⟩
      cases err with
      | none => simpa using Nat.succ_le_succ (ih f')
      | some e => simp

/-- C8 counterexample: with pass budget 20 (the library default) on
`[*.log, *.log, debug.log, b/, b/]`, a stale-index repair aborts the fixer
with an error and `findConflicts` afterwards still reports a
REDUNDANT_RULE conflict — not only SEMANTIC_CONFLICT entries. -/
theorem claim8_cex :
    (FindConflicts (FixConflicts ⟨[.ext "log" INCLUDE, .ext "log" INCLUDE,
        .file "debug.log" INCLUDE, .dir "b" DIRECTORY INCLUDE,
        .dir "b" DIRECTORY INCLUDE]⟩ 20).1).map Conflict.ctype =
      [REDUNDANT_RULE] ∧
    (FixConflicts ⟨[.ext "log" INCLUDE, .ext "log" INCLUDE,
        .file "debug.log" INCLUDE, .dir "b" DIRECTORY INCLUDE,
        .dir "b" DIRECTORY INCLUDE]⟩ 20).2.2 =
      some .ruleToMoveNotFound := by
  constructor <;> decide

/-- C8 amended: only when the fixer exits early — it completed without
error using strictly fewer passes than the budget, i.e. some pass found no
conflicts — is the resulting container guaranteed conflict-free (hence
trivially free of REDUNDANT/UNREACHABLE/INEFFECTIVE entries); when the
budget is exhausted or a repair fails, conflicts of any class may remain. -/
theorem claim8_amended (f : IgnoreFile) (n : Nat)
    (herr : (FixConflictsFull n f).2.2.1 = none)
    (hlt : (FixConflictsFull n f).2.2.2 < n) :
    FindConflicts (FixConflictsFull n f).1 = [] := by
  induction n generalizing f with
  | zero => exact absurd hlt (by simp)
  | succ n ih =>
    rw [FixConflictsFull] at herr hlt ⊢
    by_cases hemp : (FindConflicts f).isEmpty
    · rw [if_pos hemp] at herr hlt ⊢
      exact List.isEmpty_iff.mp hemp
    · rw [if_neg hemp] at herr hlt ⊢
      rcases h : fixPass f (FindConflicts f) with ⟨f', logs, err⟩
      rw [h] at herr hlt
      cases err with
      | none => exact ih f' herr (Nat.lt_of_succ_lt_succ hlt)
      | some e => exact Option.noConfusion herr

/-- C8 amended witness: on `[*.log, *.log]` with budget 3 the fixer removes
the duplicate in one pass, exits early, and the result is conflict-free. -/
theorem claim8_amended_witness :
    FindConflicts (FixConflictsFull 3
        ⟨[.ext "log" INCLUDE, .ext "log" INCLUDE]⟩).1 = [] :=
  claim8_amended ⟨[.ext "log" INCLUDE, .ext "log" INCLUDE]⟩ 3 (by decide)
    (by decide)

/-- C9: when the only detected conflict is a single SEMANTIC_CONFLICT, the
fixer never exits early: it runs all `n` passes, leaves the rule sequence
unchanged, and logs `n` identical REVIEW_RECOMMENDED / FIX_UNKNOWN results
for that conflict's Left rule. -/
theorem claim9_semantic_all_passes (f : IgnoreFile) (c : Conflict) (n : Nat)
    (hfind : FindConflicts f = [c]) (hsem : c.ctype = SEMANTIC_CONFLICT) :
    FixConflictsFull n f =
      (f, List.replicate n ⟨some c.left, REVIEW_RECOMMENDED, FIX_UNKNOWN⟩,
        none, n) := by
  have hfix : fixConflict f c =
      .ok (f, ⟨some c.left, REVIEW_RECOMMENDED, FIX_UNKNOWN⟩) := by
    rw [fixConflict, hsem]
  induction n with
  | zero => rfl
  | succ n ih =>
    rw [FixConflictsFull, hfind]
    simp only [List.isEmpty_cons, fixPass, hfix, ih, Bool.false_eq_true,
      if_false]
    simp [List.replicate_succ]

/-- C9 witness: `[a, !a]` has exactly one (semantic) conflict; three passes
leave it unchanged and log three identical REVIEW_RECOMMENDED results. -/
theorem claim9_semantic_all_passes_witness :
    FixConflictsFull 3 ⟨[.file "a" INCLUDE, .file "a" EXCLUDE]⟩ =
      (⟨[.file "a" INCLUDE, .file "a" EXCLUDE]⟩,
        List.replicate 3
          ⟨some (.file "a" INCLUDE), REVIEW_RECOMMENDED, FIX_UNKNOWN⟩,
        none, 3) :=
  claim9_semantic_all_passes ⟨[.file "a" INCLUDE, .file "a" EXCLUDE]⟩
    ⟨.file "a" INCLUDE, .file "a" EXCLUDE, SEMANTIC_CONFLICT⟩ 3 (by decide)
    rfl

/-- A string that starts with `*.` is nonempty. -/
theorem starDot_app_ne (E : String) : ("*." ++ E : String) ≠ "" := by
  intro hh
  have h2 := congrArg String.data hh
  rw [strData_append] at h2
  have h3 : ("*." : String).data = ['*', '.'] := rfl
  rw [h3] at h2
  exact absurd h2 (by simp)

/-- The pattern key of an extension rule is `*.` followed by the stored
extension, for either action. -/
theorem ext_Pattern (e : String) (a : Action) :
    Ruler.Pattern (.ext e a) = "*." ++ e := by
  cases a <;> rfl

/-- Deleting skips a leading block of non-matching rules. -/
theorem deleteFirst_append (target : Ruler) (pre rest : List Ruler)
    (h : ∀ r ∈ pre, rulesEqual r target = false) :
    deleteFirst (pre ++ rest) target =
      (deleteFirst rest target).map (pre ++ ·) := by
  induction pre with
  | nil =>
    simp only [List.nil_append]
    cases deleteFirst rest target <;> simp
  | cons a pre ih =>
    have ha : rulesEqual a target = false := h a (by simp)
    simp only [List.cons_append, deleteFirst, List.append_eq, ha,
      Bool.false_eq_true, if_false]
    rw [ih (fun r hr => h r (by simp [hr]))]
    cases deleteFirst rest target <;> simp

/-- C10: lookup and deletion compare only pattern key and action, never the
variant: a stored `ExtensionRule E` is found and removed by `DeleteGlob`
with the pattern `*.E`, and a stored `GlobRule *.E` is found and removed by
`DeleteExtension E` — in both directions the first structural match (after
any non-matching leading rules) is the cross-variant rule. -/
theorem claim10_variant_agnostic_delete (E : String) (a : Action)
    (pre post : List Ruler)
    (ht : trimStr ("*." ++ E) = "*." ++ E)
    (hE : E ≠ "") (htE : trimStr E = E) (hp2 : hasPre E "*." = false)
    (hmem : ∀ r ∈ pre, rulesEqual r (.glob ("*." ++ E) a) = false) :
    DeleteGlob ⟨pre ++ .ext E a :: post⟩ ("*." ++ E) a =
      .ok (⟨pre ++ post⟩,
        ⟨some (.glob ("*." ++ E) a), REMOVED, REQUESTED⟩) ∧
    DeleteExtension ⟨pre ++ .glob ("*." ++ E) a :: post⟩ E a =
      .ok (⟨pre ++ post⟩, ⟨some (.ext E a), REMOVED, REQUESTED⟩) := by
  have hne := starDot_app_ne E
  have hcross : rulesEqual (.ext E a) (.glob ("*." ++ E) a) = true := by
    simp only [rulesEqual, ext_Pattern]
    simp [Ruler.Pattern, Ruler.Action]
  have hcross2 : rulesEqual (.glob ("*." ++ E) a) (.ext E a) = true := by
    simp only [rulesEqual, ext_Pattern]
    simp [Ruler.Pattern, Ruler.Action]
  have hkey : ∀ r, rulesEqual r (.ext E a) =
      rulesEqual r (.glob ("*." ++ E) a) := by
    intro r
    simp only [rulesEqual, ext_Pattern]
    rfl
  have hmem2 : ∀ r ∈ pre, rulesEqual r (.ext E a) = false := by
    intro r hr
    rw [hkey r]
    exact hmem r hr
  constructor
  · have hvg : NewGlobRule ("*." ++ E) a = .ok (.glob ("*." ++ E) a) := by
      unfold NewGlobRule validateGlobPattern
      rw [ht, if_neg hne]
    have hdel : deleteFirst (pre ++ .ext E a :: post)
        (.glob ("*." ++ E) a) = some (pre ++ post) := by
      rw [deleteFirst_append _ _ _ hmem]
      simp [deleteFirst, hcross]
    have step1 : DeleteGlob ⟨pre ++ .ext E a :: post⟩ ("*." ++ E) a =
        deleteMatchingRule ⟨pre ++ .ext E a :: post⟩
          (.glob ("*." ++ E) a) REQUESTED := by
      unfold DeleteGlob; rw [hvg]
    rw [step1]
    unfold deleteMatchingRule
    rw [hdel]
  · have hve : NewExtensionRule E a = .ok (.ext E a) := by
      simp [NewExtensionRule, validateExtension, dropPre, htE, hp2, hE]
    have hdel2 : deleteFirst (pre ++ .glob ("*." ++ E) a :: post)
        (.ext E a) = some (pre ++ post) := by
      rw [deleteFirst_append _ _ _ hmem2]
      simp [deleteFirst, hcross2]
    have step2 : DeleteExtension ⟨pre ++ .glob ("*." ++ E) a :: post⟩ E a =
        deleteMatchingRule ⟨pre ++ .glob ("*." ++ E) a :: post⟩
          (.ext E a) REQUESTED := by
      unfold DeleteExtension; rw [hve]
    rw [step2]
    unfold deleteMatchingRule
    rw [hdel2]

/-- C10 witness: `DeleteGlob "*.log"` removes a stored extension rule `log`
and `DeleteExtension "log"` removes a stored glob rule `*.log`. -/
theorem claim10_variant_agnostic_delete_witness :
    DeleteGlob ⟨[.ext "log" INCLUDE]⟩ "*.log" INCLUDE =
      .ok (⟨[]⟩, ⟨some (.glob "*.log" INCLUDE), REMOVED, REQUESTED⟩) ∧
    DeleteExtension ⟨[.glob "*.log" INCLUDE]⟩ "log" INCLUDE =
      .ok (⟨[]⟩, ⟨some (.ext "log" INCLUDE), REMOVED, REQUESTED⟩) :=
  claim10_variant_agnostic_delete "log" INCLUDE [] [] rfl (by decide) rfl
    rfl (by simp)

/-- C3 counterexample: the ROOT_ONLY directory rule named `a/*` is accepted
by its constructor and renders to the single line `/a/*` (its canonical
rendering per the mode table), yet parsing that line yields the CHILDREN
directory rule `a` — whose pattern key `a/*` differs from `/a/*` — so
`parse(render(r)) == r` fails. -/
theorem claim3_cex :
    NewDirectoryRule "a/*" ROOT_ONLY INCLUDE =
      .ok (.dir "a/*" ROOT_ONLY INCLUDE) ∧
    Ruler.Render (.dir "a/*" ROOT_ONLY INCLUDE) = "/a/*" ∧
    parseRule (Ruler.Render (.dir "a/*" ROOT_ONLY INCLUDE)) =
      .ok (.dir "a" CHILDREN INCLUDE) ∧
    rulesEqual (.dir "a" CHILDREN INCLUDE)
      (.dir "a/*" ROOT_ONLY INCLUDE) = false :=
  ⟨rfl, rfl, rfl, by decide⟩

/-- C3 amended: for every rule whose fields are canonical — nonempty,
whitespace-trimmed, key not starting with `!`; file and glob lines not
extension- or directory-shaped; extensions free of `/` and `*`; directory
names without leading/trailing `/` and, in ANYWHERE or ROOT_ONLY mode,
without `*` — parsing the rendered line succeeds and returns a rule that is
structurally equal (same pattern key, same action) to the original. -/
theorem claim3_amended (r : Ruler) (h : canonicalRule r) :
    ∃ r', parseRule r.Render = .ok r' ∧ rulesEqual r' r = true := by
  cases r with
  | file p a =>
    obtain ⟨hp, ht, hb, hext, hdir⟩ := h
    have hren : Ruler.Render (.file p a) = a.pre ++ p := rfl
    rw [hren, parseRule_strip p a hb]
    rcases classify_fileglob p a hp ht hext hdir with hcl | hcl
    · exact ⟨.glob p a, hcl,
        by simp [rulesEqual, Ruler.Pattern, Ruler.Action]⟩
    · exact ⟨.file p a, hcl, rulesEqual_refl _⟩
  | glob g a =>
    obtain ⟨hg, ht, hb, hext, hdir⟩ := h
    have hren : Ruler.Render (.glob g a) = a.pre ++ g := rfl
    rw [hren, parseRule_strip g a hb]
    rcases classify_fileglob g a hg ht hext hdir with hcl | hcl
    · exact ⟨.glob g a, hcl, rulesEqual_refl _⟩
    · exact ⟨.file g a, hcl,
        by simp [rulesEqual, Ruler.Pattern, Ruler.Action]⟩
  | ext e a =>
    obtain ⟨he, ht, hsl, hst⟩ := h
    have hb : hasPre ("*." ++ e) "!" = false :=
      (hasPre_bang_cons '*' ('.' :: e.data)).trans rfl
    rw [render_ext, parseRule_strip _ a hb]
    exact ⟨.ext e a, classify_ext e a he ht hsl hst, rulesEqual_refl _⟩
  | dir n m a =>
    obtain ⟨hn, ht, hpre, hsuf, hbang, hstar⟩ := h
    rw [render_dir, parseRule_strip _ a (dirKey_noBang n m hn hbang)]
    exact ⟨.dir n m a, classify_dir n m a hn ht hpre hsuf hstar,
      rulesEqual_refl _⟩

/-- C3 amended witness: the extension rule `log` is canonical and its
rendered line `*.log` parses back to a structurally equal rule. -/
theorem claim3_amended_witness :
    ∃ r', parseRule (Ruler.Render (.ext "log" INCLUDE)) = .ok r' ∧
      rulesEqual r' (.ext "log" INCLUDE) = true :=
  claim3_amended (.ext "log" INCLUDE)
    ⟨by decide, by decide, by decide, by decide⟩

end Gignore
